import Mathlib

/-!
Shallow embedding of `generate_ics.py` (fginc/cn-market-calendar).

The script builds iCalendar files for Chinese A-share market events.  The
definitions below translate, function by function, the parts of the source
that the verified properties are about:

* `_pick_col` (schema resolver, source lines 42-57) as `pick_col`;
* `_to_dt` (date/timestamp normalizer, lines 25-39) as `to_dt`, over an
  explicit model `PyVal` of Python cell values and pandas `isna` /
  `to_datetime` behaviour on them;
* `date_range` / `in_range` (lines 97-100, 120-124);
* the `gen_unlock_calendar` row loop (lines 179-217) as `processURow` /
  `genUnlockEvents`;
* `parse_day` of `gen_nbs_release_calendar` (lines 577-586);
* the content-column lookup of `gen_nbs_release_calendar` (lines 596-603);
* the uid format strings of `gen_macro_calendar` (line 415) and
  `gen_nbs_release_calendar` (lines 660, 669), with Python's per-process
  string `hash` as an explicit parameter;
* the `__main__` orchestration (lines 675-693) as `runMain`.

Machine reals: the only numeric comparison in scope (`mv_yi < threshold`
in the unlock filter) is modelled over `ℚ`; every value the verified
properties exercise ("3", "10", threshold 5) is exactly representable as a
binary float, so the rational model agrees with CPython floats there.
-/

/-! ### Characters and strings -/

/-- Characters matched by Python's `str.isspace` / `re` `\s` (Unicode mode):
ASCII whitespace, the C1 controls `\x1c`-`\x1f`, `\x85`, and the Unicode
space separators. -/
def isPyWs (c : Char) : Bool :=
  c = ' ' || c = '\t' || c = '\n' || c = '\r' || c = '\x0b' || c = '\x0c' ||
  ('\x1c' ≤ c && c ≤ '\x1f') || c = '\x85' || c = '\xa0' || c = '\u1680' ||
  ('\u2000' ≤ c && c ≤ '\u200a') ||
  c = '\u2028' || c = '\u2029' || c = '\u202f' || c = '\u205f' || c = '\u3000'

/-- Python `str.strip()`: drop leading and trailing whitespace. -/
def pyStrip (s : String) : String :=
  String.mk (((s.data.dropWhile isPyWs).reverse.dropWhile isPyWs).reverse)

/-- Value of a digit character. -/
def dval (c : Char) : Nat := c.toNat - '0'.toNat

/-- Value of a digit string, most significant first (`int("…")` on digits). -/
def digitsVal (ds : List Char) : Nat := ds.foldl (fun a c => a * 10 + dval c) 0

/-- `needle.isPrefixOf hay` on character lists. -/
def listIsPfx : List Char → List Char → Bool
  | [], _ => true
  | _ :: _, [] => false
  | a :: as, b :: bs => a = b && listIsPfx as bs

/-- Python's substring test `needle in hay`. -/
def listHasSub (needle : List Char) : List Char → Bool
  | [] => needle.isEmpty
  | c :: t => listIsPfx needle (c :: t) || listHasSub needle t

/-- Python `needle in hay` on strings. -/
def strContains (needle hay : String) : Bool := listHasSub needle.data hay.data

/-! ### Schema resolver (`_pick_col`, source lines 42-57) -/

/-- Character class of the source's `re.sub(r"[\s\(\)（）_\-]", "", …)`:
whitespace, ASCII and full-width parentheses, underscore, hyphen. -/
def isNormStrip (c : Char) : Bool :=
  isPyWs c || c = '(' || c = ')' || c = '（' || c = '）' || c = '_' || c = '-'

/-- The source's `norm`: delete every stripped character.  Note it neither
lowercases nor removes the text that stood between parentheses. -/
def norm (s : String) : String := String.mk (s.data.filter (fun c => !isNormStrip c))

/-- `_pick_col(df, candidates)` over the dataset's column-label list.
Phase 1: first candidate (in priority order) that is literally a column.
Phase 2: the dict `{norm(c): c for c in cols}` keeps, for each normalized
key, the **last** column producing it, so lookup is `find?` over the
reversed column list; candidates are tried in priority order. -/
def pick_col (cols candidates : List String) : Option String :=
  match candidates.find? (fun c => cols.contains c) with
  | some c => some c
  | none =>
    candidates.findSome? (fun c => (cols.reverse).find? (fun l => norm l == norm c))

/-! ### Calendar dates (`datetime.date`) -/

/-- A Python `datetime.date`: proleptic-Gregorian year/month/day.
`date` objects compare lexicographically on these three fields. -/
structure SDate where
  y : Nat
  m : Nat
  d : Nat
deriving DecidableEq, Repr

/-- Python `date.__le__`: lexicographic on (year, month, day). -/
def sdleb (a b : SDate) : Bool :=
  decide (a.y < b.y ∨ (a.y = b.y ∧ (a.m < b.m ∨ (a.m = b.m ∧ a.d ≤ b.d))))

def isLeap (y : Nat) : Bool := y % 4 = 0 && (y % 100 ≠ 0 || y % 400 = 0)

def daysInMonth (y m : Nat) : Nat :=
  if m = 2 then (if isLeap y then 29 else 28)
  else if m = 4 ∨ m = 6 ∨ m = 9 ∨ m = 11 then 30
  else 31

/-- The day after `a` in the Gregorian calendar. -/
def succDay (a : SDate) : SDate :=
  if a.d < daysInMonth a.y a.m then ⟨a.y, a.m, a.d + 1⟩
  else if a.m < 12 then ⟨a.y, a.m + 1, 1⟩
  else ⟨a.y + 1, 1, 1⟩

/-- The day before `a`. -/
def predDay (a : SDate) : SDate :=
  if 1 < a.d then ⟨a.y, a.m, a.d - 1⟩
  else if 1 < a.m then ⟨a.y, a.m - 1, daysInMonth a.y (a.m - 1)⟩
  else ⟨a.y - 1, 12, 31⟩

/-- `date + timedelta(days=n)`. -/
def addDays (a : SDate) : Nat → SDate
  | 0 => a
  | n + 1 => succDay (addDays a n)

def subDays (a : SDate) : Nat → SDate
  | 0 => a
  | n + 1 => predDay (subDays a n)

def pad2 (n : Nat) : String := if n < 10 then "0" ++ toString n else toString n

def pad4 (n : Nat) : String :=
  if n < 10 then "000" ++ toString n
  else if n < 100 then "00" ++ toString n
  else if n < 1000 then "0" ++ toString n
  else toString n

/-- `str(date)` / an f-string `{dd}`: ISO `YYYY-MM-DD`. -/
def isoDate (a : SDate) : String := pad4 a.y ++ "-" ++ pad2 a.m ++ "-" ++ pad2 a.d

/-! ### Python cell values and pandas datetimes -/

/-- A Python value that can sit in a DataFrame cell, as far as this script
touches them: `None`, `float("nan")` (and pandas NA markers, which `isna`
treats alike), strings, ints (pandas reads a bare int as a nanosecond
epoch), `datetime.date`, `datetime.datetime` (sub-minute fields unused by
the script, which only ever calls `.date()`), and array-likes. -/
inductive PyVal where
  | none
  | nan
  | str (s : String)
  | int (n : Int)
  | pydate (y m d : Nat)
  | pydatetime (y m d hh mi : Nat)
  | list (xs : List PyVal)

/-- Result of `pd.to_datetime` after `_to_dt`'s own post-processing: either
a `datetime` (minute resolution suffices for this script), a raw
nanosecond-epoch `Timestamp`, or a `DatetimeIndex` (what `pd.to_datetime`
yields on a list argument, returned unchanged by `_to_dt`). -/
inductive DT where
  | ymd (y m d hh mi : Nat)
  | epochNs (n : Int)
  | dtIndex (ts : List DT)
deriving Repr

/-- `pd.isna` on a scalar. -/
def scalarIsNa : PyVal → Bool
  | .none => true
  | .nan => true
  | _ => false

/-- Split a character list on a separator character. -/
def splitOnChar (sep : Char) : List Char → List (List Char)
  | [] => [[]]
  | c :: t =>
    let r := splitOnChar sep t
    if c = sep then [] :: r
    else
      match r with
      | [] => [[c]]
      | h :: t2 => (c :: h) :: t2

/-- Models `pd.to_datetime` on a string for the ISO `YYYY-[M]M-[D]D` date
format (the only string format the verified properties exercise); any
other string is mapped to a parse failure.  pandas validates the calendar
(month 1-12, day within the month). -/
def parseTs (s : String) : Option DT :=
  match splitOnChar '-' s.data with
  | [ys, ms, ds] =>
    if ys.length = 4 ∧ ys.all Char.isDigit ∧
       1 ≤ ms.length ∧ ms.length ≤ 2 ∧ ms.all Char.isDigit ∧
       1 ≤ ds.length ∧ ds.length ≤ 2 ∧ ds.all Char.isDigit then
      let y := digitsVal ys
      let m := digitsVal ms
      let d := digitsVal ds
      if 1 ≤ m ∧ m ≤ 12 ∧ 1 ≤ d ∧ d ≤ daysInMonth y m then
        some (.ymd y m d 0 0)
      else Option.none
    else Option.none
  | _ => Option.none

/-- `pd.to_datetime` on a scalar argument; `Option.none` models the call
raising (caught by `_to_dt`'s `except`; string inputs that yield `NaT` are
folded into this case, since `_to_dt` maps both to `None`). -/
def pdToDatetime1 : PyVal → Option DT
  | .str s => parseTs s
  | .int n => some (.epochNs n)
  | .pydate y m d => some (.ymd y m d 0 0)
  | .pydatetime y m d hh mi => some (.ymd y m d hh mi)
  | _ => Option.none

/-- `_to_dt(x)` (source lines 25-39).  `Except.error` models an uncaught
exception.  The guard line
`x is None or (isinstance(x, float) and pd.isna(x)) or (hasattr(pd, "isna") and pd.isna(x))`
runs **outside** the `try`: on an array-like of length ≠ 1, `pd.isna`
returns an array whose truth value raises `ValueError` right there.  On a
single-element array-like the truth test succeeds; `pd.to_datetime` then
returns a `DatetimeIndex`, which is neither a `Timestamp` nor a bare
`date`, so `_to_dt` returns it unchanged. -/
def to_dt : PyVal → Except String (Option DT)
  | .none => .ok Option.none
  | .nan => .ok Option.none
  | .list xs =>
    match xs with
    | [v] =>
      if scalarIsNa v then .ok Option.none
      else
        match pdToDatetime1 v with
        | Option.none => .ok Option.none
        | some t => .ok (some (.dtIndex [t]))
    | _ => .error "ValueError: The truth value of an array is ambiguous"
  | x =>
    match pdToDatetime1 x with
    | Option.none => .ok Option.none
    | some ts => .ok (some ts)

/-! ### `str()` of cell values -/

mutual

/-- Python `repr` of the modelled values (the form `str(list)` uses for the
list's elements). -/
def pyRepr : PyVal → String
  | PyVal.none => "None"
  | .nan => "nan"
  | .str s => "\x27" ++ s ++ "\x27"
  | .int n => toString n
  | .pydate y m d =>
    "datetime.date(" ++ toString y ++ ", " ++ toString m ++ ", " ++ toString d ++ ")"
  | .pydatetime y m d hh mi =>
    "datetime.datetime(" ++ toString y ++ ", " ++ toString m ++ ", " ++ toString d ++
      ", " ++ toString hh ++ ", " ++ toString mi ++ ")"
  | .list xs => "[" ++ ", ".intercalate (pyReprList xs) ++ "]"

def pyReprList : List PyVal → List String
  | [] => []
  | x :: t => pyRepr x :: pyReprList t

end

/-- Python `str()` of the modelled values (`str` is identity on strings,
ISO format on dates/datetimes, `repr`-like elsewhere). -/
def pyStr : PyVal → String
  | .str s => s
  | .pydate y m d => isoDate ⟨y, m, d⟩
  | .pydatetime y m d hh mi =>
    isoDate ⟨y, m, d⟩ ++ " " ++ pad2 hh ++ ":" ++ pad2 mi ++ ":00"
  | v => pyRepr v

/-! ### `.date()` of a normalized value -/

/-- Date of a nanosecond epoch: `1970-01-01` plus the floor number of days. -/
def epochDate (n : Int) : SDate :=
  let days : Int := Int.fdiv n 86400000000000
  if 0 ≤ days then addDays ⟨1970, 1, 1⟩ days.toNat
  else subDays ⟨1970, 1, 1⟩ (-days).toNat

/-- `d.date()` on the result of `_to_dt`: defined for `datetime` values; a
`DatetimeIndex` has no `.date()` (and already fails the source's `if not d`
truth test with a `ValueError`), modelled as an error. -/
def DT.dateE : DT → Except String SDate
  | .ymd y m d _ _ => .ok ⟨y, m, d⟩
  | .epochNs n => .ok (epochDate n)
  | .dtIndex _ => .error "TypeError: an Index is not a datetime"

/-! ### Date-range window (source lines 97-100 and 120-124) -/

/-- `date_range()`: `start` is today's date, `end` is the date `DAYS_FORWARD`
days later (`datetime.now(tz) + timedelta(days=n)` adds `n` calendar days to
the wall clock — Asia/Shanghai has a fixed UTC offset — and `.date()` keeps
the day part). -/
def date_range (today : SDate) (n : Nat) : SDate × SDate := (today, addDays today n)

/-- `in_range(d)` from `gen_ipo_calendar`: `None` is rejected; otherwise
`start <= d.date() <= end`, both comparisons inclusive. -/
def in_range (start «end» : SDate) (d : Option DT) : Except String Bool :=
  match d with
  | Option.none => .ok false
  | some dt => (DT.dateE dt).map (fun dd => sdleb start dd && sdleb dd «end»)

/-! ### Unlock calendar (`gen_unlock_calendar`, source lines 179-217) -/

/-- `r.get(col, default)` on a DataFrame row, modelled as an association
list from column label to cell value. -/
def rget (r : List (String × PyVal)) (col : String) (dflt : PyVal) : PyVal :=
  match r.find? (fun p => p.1 == col) with
  | some p => p.2
  | Option.none => dflt

/-- `str(r.get(c, "")).strip() if c else ""`. -/
def cellStr (r : List (String × PyVal)) (c : Option String) : String :=
  match c with
  | some col => pyStrip (pyStr (rget r col (.str "")))
  | Option.none => ""

/-- Unsigned decimal literal (integer part, optional `.` and fraction).
`float()` additionally accepts exponents, `inf`/`nan` and digit
underscores; those forms never occur in the verified scenarios and are
mapped to a parse failure. -/
def parseUDec (cs : List Char) : Option ℚ :=
  let ip := cs.takeWhile Char.isDigit
  let rest := cs.dropWhile Char.isDigit
  match rest with
  | [] => if ip.isEmpty then Option.none else some (digitsVal ip : ℚ)
  | '.' :: fr =>
    if ip.isEmpty && fr.isEmpty then Option.none
    else if fr.all Char.isDigit then
      some ((digitsVal ip : ℚ) + (digitsVal fr : ℚ) / ((10 : ℚ) ^ fr.length))
    else Option.none
  | _ => Option.none

/-- Python `float(s)` for optionally signed decimal literals. -/
def parseFloatQ (s : String) : Option ℚ :=
  match s.data with
  | '-' :: t => (parseUDec t).map (fun q => -q)
  | '+' :: t => parseUDec t
  | t => parseUDec t

/-- The source's market-value parse (lines 205-210): skip when the cell is
empty, else `float(str(mv).replace(",", "").replace("亿", "").strip())`,
with a failed parse yielding `None`. -/
def mvYi (mv : String) : Option ℚ :=
  if mv = "" then Option.none
  else parseFloatQ (pyStrip (String.mk (mv.data.filter (fun c => !(c = ',' || c = '亿')))))

/-- One emitted all-day calendar event, with the fields the claims are
about: summary, day, description, uid. -/
structure IcsEvent where
  summary : String
  day : SDate
  description : String
  uid : String
deriving DecidableEq, Repr

/-- `d = _to_dt(r.get(date_col)) if date_col else None` (`r.get` without a
default yields `None` for a missing key). -/
def rowDate (dateCol : Option String) (r : List (String × PyVal)) :
    Except String (Option DT) :=
  match dateCol with
  | some dc => to_dt (rget r dc PyVal.none)
  | Option.none => .ok Option.none

/-- The `title` expression: `f"{nm}({code})" if code and nm else (nm or code or "解禁")`. -/
def unlockTitle (nm code : String) : String :=
  if code ≠ "" ∧ nm ≠ "" then nm ++ "(" ++ code ++ ")"
  else if nm ≠ "" then nm
  else if code ≠ "" then code
  else "解禁"

/-- The `desc` expression: `"；".join` of the non-empty annotation pieces. -/
def unlockDesc (amt mv : String) : String :=
  "；".intercalate
    (((if amt ≠ "" then "解禁数量: " ++ amt else "") ::
      [if mv ≠ "" then "解禁市值: " ++ mv else ""]).filter (fun x => x ≠ ""))

/-- Body of the `gen_unlock_calendar` row loop for one row: returns
`Except.error` when the row raises, `.ok none` when the row is skipped
(`continue`), `.ok (some ev)` when an event is registered. -/
def processURow (start «end» : SDate) (thr : ℚ)
    (dateCol codeCol nameCol amtCol mvCol : Option String)
    (r : List (String × PyVal)) : Except String (Option IcsEvent) :=
  match rowDate dateCol r with
  | .error e => .error e
  | .ok Option.none => .ok Option.none
  | .ok (some dt) =>
    match DT.dateE dt with
    | .error e => .error e
    | .ok dd =>
      if sdleb start dd && sdleb dd «end» then
        let code := cellStr r codeCol
        let nm := cellStr r nameCol
        let amt := cellStr r amtCol
        let mv := cellStr r mvCol
        let ev : IcsEvent :=
          { summary := "限售解禁｜" ++ unlockTitle nm code
            day := dd
            description := unlockDesc amt mv
            uid := "unlock-" ++ code ++ "-" ++ isoDate dd }
        match mvYi mv with
        | some v => if v < thr then .ok Option.none else .ok (some ev)
        | Option.none => .ok (some ev)
      else .ok Option.none

/-- `for _, r in df.iterrows(): …` — an uncaught exception aborts the whole
category, a `continue` just drops the row. -/
def unlockLoop (start «end» : SDate) (thr : ℚ)
    (dateCol codeCol nameCol amtCol mvCol : Option String) :
    List (List (String × PyVal)) → Except String (List IcsEvent)
  | [] => .ok []
  | r :: rs =>
    match processURow start «end» thr dateCol codeCol nameCol amtCol mvCol r with
    | .error e => .error e
    | .ok o =>
      match unlockLoop start «end» thr dateCol codeCol nameCol amtCol mvCol rs with
      | .error e => .error e
      | .ok es => .ok (o.toList ++ es)

/-- `gen_unlock_calendar` after the dataset fetch: resolve the five column
roles with `_pick_col` (source lines 179-183), then run the row loop. -/
def genUnlockEvents (start «end» : SDate) (thr : ℚ) (cols : List String)
    (rows : List (List (String × PyVal))) : Except String (List IcsEvent) :=
  let dateCol := pick_col cols ["解禁日期", "日期"]
  let codeCol := pick_col cols ["股票代码", "代码"]
  let nameCol := pick_col cols ["股票简称", "名称"]
  let amtCol := pick_col cols ["解禁数量", "解禁股数", "数量", "解禁数量(万股)"]
  let mvCol := pick_col cols ["解禁市值", "市值", "解禁市值(亿元)"]
  unlockLoop start «end» thr dateCol codeCol nameCol amtCol mvCol rows

/-! ### Grid-table day cells (`gen_nbs_release_calendar.parse_day`, lines 577-586) -/

/-- Does the cell contain the two-character ellipsis `……` (U+2026 twice)? -/
def hasEll : List Char → Bool
  | c1 :: c2 :: t => (c1 = '…' && c2 = '…') || hasEll (c2 :: t)
  | _ => false

/-- `re.match(r"^\s*(\d{1,2})\s*/", cell)` followed by `int(group(1))`:
skip leading whitespace, greedily take two digits (backtracking to one),
skip whitespace, require `/`.  With two leading digits the backtracked
one-digit attempt sees the second digit where `/` is required, so it can
never succeed — hence the direct failures below.  (`\d` is modelled as the
ASCII digits.) -/
def matchDay (cs : List Char) : Option Nat :=
  match cs.dropWhile isPyWs with
  | [] => Option.none
  | c1 :: r1 =>
    if c1.isDigit then
      match r1 with
      | [] => Option.none
      | c2 :: r2 =>
        if c2.isDigit then
          if ((r2.dropWhile isPyWs).head? == some '/') then some (dval c1 * 10 + dval c2)
          else Option.none
        else
          if (((c2 :: r2).dropWhile isPyWs).head? == some '/') then some (dval c1)
          else Option.none
    else Option.none

/-- `parse_day(cell)`: empty cells, cells containing `……`, and the bare
dashes `-`/`—` are absent; otherwise the leading `day/` match. -/
def parse_day (cell : String) : Option Nat :=
  if cell = "" then Option.none
  else if hasEll cell.data || cell = "-" || cell = "—" then Option.none
  else matchDay cell.data

/-! ### Grid-table content column (source lines 596-603) -/

/-- The source's single loop: first header cell `v` with
`"内容" == v or "内容" in v` wins; default column index 1. -/
def findContentCol (header : List String) : Nat :=
  match header.findIdx? (fun v => ("内容" == v) || strContains "内容" v) with
  | some i => i
  | Option.none => 1

/-- The spec's §4.3 step 2 wording, for comparison: prefer an exact
`"内容"` match anywhere in the header, only then fall back to the first
cell containing it as a substring, and finally to index 1. -/
def findContentColSpec (header : List String) : Nat :=
  match header.findIdx? (fun v => v == "内容") with
  | some i => i
  | Option.none =>
    match header.findIdx? (fun v => strContains "内容" v) with
    | some i => i
    | Option.none => 1

/-! ### Event identifiers built from Python `hash` -/

/-- Uid of a macro event (source line 415):
`f"macro-{dd}-{abs(hash(summary))}"`.  `pyHash` stands for Python's
builtin `hash` on `str`, which is keyed by the per-process
`PYTHONHASHSEED`-derived secret — a fresh interpreter generally hashes the
same string to a different value. -/
def uidMacroRow (pyHash : String → Int) (dd : SDate) (summary : String) : String :=
  "macro-" ++ isoDate dd ++ "-" ++ toString (pyHash summary).natAbs

/-- Uid of an NBS event (source lines 660 and 669):
`f"nbs-{year}-{month:02d}-{day:02d}-{abs(hash(content))}@stats.gov.cn"`. -/
def uidNbsRow (pyHash : String → Int) (year month day : Nat) (content : String) : String :=
  "nbs-" ++ toString year ++ "-" ++ pad2 month ++ "-" ++ pad2 day ++ "-" ++
    toString (pyHash content).natAbs ++ "@stats.gov.cn"

/-! ### Top-level orchestration (`__main__`, source lines 675-693) -/

/-- The `__main__` block: the eight primary generators run in order and an
uncaught exception from any of them aborts the run; `gen_nbs_release_calendar`
alone is wrapped in `try/except` (its failure is printed and swallowed);
finally `00_all.ics` is written.  Each argument is the outcome of one
generator, carrying the filename it wrote on success; the result lists the
files written by a completed run. -/
def runMain (ipo unlock earn dvd idx mcr tpl1 tpl2 nbs : Except String String) :
    Except String (List String) :=
  match ipo with
  | .error e => .error e
  | .ok f1 =>
  match unlock with
  | .error e => .error e
  | .ok f2 =>
  match earn with
  | .error e => .error e
  | .ok f3 =>
  match dvd with
  | .error e => .error e
  | .ok f4 =>
  match idx with
  | .error e => .error e
  | .ok f5 =>
  match mcr with
  | .error e => .error e
  | .ok f6 =>
  match tpl1 with
  | .error e => .error e
  | .ok f7 =>
  match tpl2 with
  | .error e => .error e
  | .ok f8 =>
  let nbsFiles := match nbs with
    | .ok f9 => [f9]
    | .error _ => []
  .ok ([f1, f2, f3, f4, f5, f6, f7, f8] ++ nbsFiles ++ ["00_all.ics"])

/-! ### Concrete scenario data -/

/-- Column labels of the mock unlock dataset. -/
def c6cols : List String := ["解禁日期", "股票代码", "股票简称", "解禁数量", "解禁市值"]

/-- In-range unlock row valued 3 (hundred-million yuan). -/
def c6row3 : List (String × PyVal) :=
  [("解禁日期", .str "2026-02-01"), ("股票代码", .str "600001"),
   ("股票简称", .str "甲"), ("解禁数量", .str "1000"), ("解禁市值", .str "3")]

/-- In-range unlock row valued 10. -/
def c6row10 : List (String × PyVal) :=
  [("解禁日期", .str "2026-02-05"), ("股票代码", .str "600002"),
   ("股票简称", .str "乙"), ("解禁数量", .str "2000"), ("解禁市值", .str "10")]

/-- In-range unlock row with an empty market-value cell. -/
def c10row : List (String × PyVal) :=
  [("解禁日期", .str "2026-02-01"), ("股票代码", .str "600003"),
   ("股票简称", .str "丙"), ("解禁数量", .str "500"), ("解禁市值", .str "")]

/-! ### Lemmas about lexicographic date order -/

theorem sdleb_refl (a : SDate) : sdleb a a = true :=
  decide_eq_true (Or.inr ⟨rfl, Or.inr ⟨rfl, Nat.le_refl _⟩⟩)

theorem sdleb_trans {a b c : SDate} (h1 : sdleb a b = true) (h2 : sdleb b c = true) :
    sdleb a c = true := by
  have p1 := of_decide_eq_true h1
  have p2 := of_decide_eq_true h2
  apply decide_eq_true
  omega

theorem sdleb_succDay (a : SDate) : sdleb a (succDay a) = true := by
  unfold succDay
  split
  · apply decide_eq_true
    dsimp only
    omega
  · split
    · apply decide_eq_true
      dsimp only
      omega
    · apply decide_eq_true
      dsimp only
      omega

theorem sdleb_addDays (a : SDate) (n : Nat) : sdleb a (addDays a n) = true := by
  induction n with
  | zero => exact sdleb_refl a
  | succ k ih => exact sdleb_trans ih (sdleb_succDay (addDays a k))

/-! ### C1 -/

/-- C1: for every dataset column list and every candidate list, `_pick_col`
returns either a label present in the dataset's own column list or `None`;
it never returns a candidate string that is not itself a column label. -/
theorem pick_col_returns_member (cols candidates : List String) (l : String)
    (h : pick_col cols candidates = some l) : l ∈ cols := by
  unfold pick_col at h
  split at h
  · next c hf =>
    cases h
    have hp := List.find?_some hf
    simpa using hp
  · next hf =>
    obtain ⟨c, _, hfc⟩ := List.exists_of_findSome?_eq_some h
    exact List.mem_reverse.1 (List.mem_of_find?_eq_some hfc)

/-- Witness for C1 at a concrete dataset: candidate "b" is picked and is a
column of `["a", "b"]`. -/
theorem pick_col_returns_member_witness : ("b" : String) ∈ ["a", "b"] :=
  pick_col_returns_member ["a", "b"] ["b", "x"] "b" (by decide)

/-! ### C2 -/

/-- C2: the macro and NBS event identifiers are **not** pure functions of
category and source fields — they embed `abs(hash(...))` of a summary or
content string, and Python's string `hash` is keyed by per-process state
(`PYTHONHASHSEED` randomization), so two runs over identical input data
generally emit different uid sets.  Exhibited here: two admissible
per-process hash functions give different uids for the same event data. -/
theorem uid_depends_on_hash_seed :
    uidMacroRow (fun _ => 0) ⟨2026, 1, 9⟩ "中国｜CPI" ≠
      uidMacroRow (fun _ => 1) ⟨2026, 1, 9⟩ "中国｜CPI" ∧
    uidNbsRow (fun _ => 0) 2026 1 9 "居民消费价格指数" ≠
      uidNbsRow (fun _ => 1) 2026 1 9 "居民消费价格指数" := by
  exact ⟨by decide, by decide⟩

/-! ### C3 -/

/-- C3 counterexample: `_to_dt` is *not* total on every Python value — for
a two-element array-like the `pd.isna` pre-check on line 27 runs outside
the `try` and its array result has no truth value, so the call raises. -/
theorem to_dt_raises_on_array_like :
    to_dt (.list [.int 1, .int 2]) =
      .error "ValueError: The truth value of an array is ambiguous" := rfl

/-- C3 as amended: on every **scalar** input (null, NaN, string, numeric
epoch, native date or datetime — everything except a multi-element
array-like) `_to_dt` never raises; an unparseable string, a null and a
NaN all yield absence, and a valid ISO date string agrees with the
equivalent native date object. -/
theorem to_dt_total_on_scalars :
    (∀ x : PyVal, (∀ xs, x ≠ .list xs) → ∃ r, to_dt x = .ok r) ∧
    to_dt .none = .ok Option.none ∧
    to_dt .nan = .ok Option.none ∧
    to_dt (.str "not a date") = .ok Option.none ∧
    to_dt (.str "2026-01-05") = .ok (some (.ymd 2026 1 5 0 0)) ∧
    to_dt (.pydate 2026 1 5) = .ok (some (.ymd 2026 1 5 0 0)) ∧
    to_dt (.str "2026-01-05") = to_dt (.pydate 2026 1 5) := by
  refine ⟨?_, rfl, rfl, rfl, rfl, rfl, rfl⟩
  intro x hx
  cases x with
  | none => exact ⟨_, rfl⟩
  | nan => exact ⟨_, rfl⟩
  | int n => exact ⟨_, rfl⟩
  | pydate y m d => exact ⟨_, rfl⟩
  | pydatetime y m d hh mi => exact ⟨_, rfl⟩
  | str s =>
    cases h : pdToDatetime1 (.str s) with
    | none => exact ⟨Option.none, by simp [to_dt, h]⟩
    | some t => exact ⟨some t, by simp [to_dt, h]⟩
  | list xs => exact absurd rfl (hx xs)

/-- Witness for C3 (amended) at a concrete scalar: the calendar-invalid
string "2026-02-31" does not raise. -/
theorem to_dt_total_on_scalars_witness : ∃ r, to_dt (.str "2026-02-31") = .ok r :=
  to_dt_total_on_scalars.1 (.str "2026-02-31") (fun _ h => PyVal.noConfusion h)

/-! ### C4 -/

/-- C4 counterexample: normalization deletes only the bracket *characters*
(not the bracketed text) and never folds letter case, so the column
"解禁市值(亿元)" does **not** resolve against candidate "解禁市值", and
"ABC" does not resolve against "abc". -/
theorem norm_match_not_case_or_content_insensitive :
    pick_col ["解禁市值(亿元)"] ["解禁市值"] = Option.none ∧
    pick_col ["ABC"] ["abc"] = Option.none := ⟨rfl, rfl⟩

/-- C4 as amended: the fuzzy phase is insensitive to whitespace, ASCII and
full-width parenthesis characters, underscores and hyphens (it is case-
sensitive and keeps bracketed content): whenever some candidate and some
column label have equal stripped forms the resolver succeeds; a label and
a candidate differing only in stripped characters resolve to the label;
and "解禁市值(亿元)" resolves against the candidate "解禁市值_亿元". -/
theorem norm_match_strip_insensitive :
    (∀ cols cands c l, c ∈ cands → l ∈ cols → norm c = norm l →
      (pick_col cols cands).isSome = true) ∧
    (∀ l c, norm l = norm c → pick_col [l] [c] = some l) ∧
    pick_col ["解禁市值(亿元)"] ["解禁市值_亿元"] = some "解禁市值(亿元)" := by
  refine ⟨?_, ?_, rfl⟩
  · intro cols cands c l hc hl hn
    unfold pick_col
    split
    · rfl
    · next hf =>
      cases hs : cands.findSome? (fun c => (cols.reverse).find? (fun l => norm l == norm c)) with
      | some v => rfl
      | none =>
        have h1 := (List.findSome?_eq_none_iff.1 hs) c hc
        have h2 := List.find?_eq_none.1 h1 l (List.mem_reverse.2 hl)
        exact absurd (by simp [beq_iff_eq]; exact hn.symm) h2
  · intro l c hn
    by_cases h : c = l
    · subst h
      simp [pick_col, List.find?, List.contains, List.elem]
    · have hb : (c == l) = false := beq_eq_false_iff_ne.2 h
      have hbn : (norm l == norm c) = true := by simp [beq_iff_eq]; exact hn
      simp [pick_col, List.find?, List.contains, List.elem, List.findSome?, hb, hbn]

/-- Witness for C4 (amended) at concrete labels: "AB" resolves against the
column "A B". -/
theorem norm_match_strip_insensitive_witness : (pick_col ["A B"] ["AB"]).isSome = true :=
  norm_match_strip_insensitive.1 ["A B"] ["AB"] "AB" "A B" (by decide) (by decide) (by decide)

/-! ### C5 -/

/-- C5: date-range filtering is inclusive on both ends — with the window
`date_range` produces, a row is retained exactly when
`today <= d <= today + n days`; in particular an event dated exactly
`today` or exactly `today + n days` is retained, and an absent date is
rejected. -/
theorem range_filter_inclusive (today : SDate) (n : Nat) (dt : DT) (dd : SDate)
    (h : DT.dateE dt = .ok dd) :
    (in_range (date_range today n).1 (date_range today n).2 (some dt) =
      .ok (sdleb today dd && sdleb dd (addDays today n))) ∧
    (dd = today → in_range (date_range today n).1 (date_range today n).2 (some dt) = .ok true) ∧
    (dd = addDays today n →
      in_range (date_range today n).1 (date_range today n).2 (some dt) = .ok true) ∧
    in_range (date_range today n).1 (date_range today n).2 Option.none = .ok false := by
  refine ⟨?_, ?_, ?_, rfl⟩
  · simp [in_range, date_range, h, Except.map]
  · intro he
    subst he
    simp [in_range, date_range, h, Except.map, sdleb_refl, sdleb_addDays]
  · intro he
    subst he
    simp [in_range, date_range, h, Except.map, sdleb_refl, sdleb_addDays]

/-- Witness for C5 at today = 2026-01-01, n = 90: an event dated exactly
today is retained. -/
theorem range_filter_inclusive_witness :
    in_range (date_range ⟨2026, 1, 1⟩ 90).1 (date_range ⟨2026, 1, 1⟩ 90).2
      (some (.ymd 2026 1 1 0 0)) = .ok true :=
  (range_filter_inclusive ⟨2026, 1, 1⟩ 90 (.ymd 2026 1 1 0 0) ⟨2026, 1, 1⟩ rfl).2.1 rfl

/-! ### C6 -/

set_option maxRecDepth 8192 in
/-- C6: with the default threshold 5, the mock unlock dataset with one
in-range row valued 3 and one valued 10 yields exactly the 10-valued
entry; and in general a row whose market value parses below the threshold
is never emitted. -/
theorem unlock_threshold_filter :
    genUnlockEvents ⟨2026, 1, 1⟩ (addDays ⟨2026, 1, 1⟩ 90) 5 c6cols [c6row3, c6row10] =
      .ok [{ summary := "限售解禁｜乙(600002)", day := ⟨2026, 2, 5⟩,
             description := "解禁数量: 2000；解禁市值: 10",
             uid := "unlock-600002-2026-02-05" }] ∧
    (∀ start last thr dateCol codeCol nameCol amtCol mvCol r v,
      mvYi (cellStr r mvCol) = some v → v < thr →
      ∀ ev, processURow start last thr dateCol codeCol nameCol amtCol mvCol r ≠
        .ok (some ev)) := by
  constructor
  · rfl
  · intro start last thr dateCol codeCol nameCol amtCol mvCol r v hmv hlt ev
    cases hrd : rowDate dateCol r with
    | error e => simp [processURow, hrd]
    | ok o =>
      cases o with
      | none => simp [processURow, hrd]
      | some dt =>
        cases hde : DT.dateE dt with
        | error e => simp [processURow, hrd, hde]
        | ok dd =>
          by_cases hir : (sdleb start dd && sdleb dd last) = true
          · simp [processURow, hrd, hde, hir, hmv, hlt]
          · simp [processURow, hrd, hde, hir]

/-- Witness for C6's general part: the 3-valued row is dropped (its event
would have been the one shown). -/
theorem unlock_threshold_filter_witness :
    processURow ⟨2026, 1, 1⟩ (addDays ⟨2026, 1, 1⟩ 90) 5 (some "解禁日期") (some "股票代码")
      (some "股票简称") (some "解禁数量") (some "解禁市值") c6row3 ≠
      .ok (some { summary := "限售解禁｜甲(600001)", day := ⟨2026, 2, 1⟩,
                  description := "解禁数量: 1000；解禁市值: 3",
                  uid := "unlock-600001-2026-02-01" }) :=
  unlock_threshold_filter.2 ⟨2026, 1, 1⟩ (addDays ⟨2026, 1, 1⟩ 90) 5 (some "解禁日期")
    (some "股票代码") (some "股票简称") (some "解禁数量") (some "解禁市值") c6row3 3
    (by decide) (by decide) _

/-! ### C7 -/

/-- C7: `parse_day` yields absence — never a fabricated day — for empty
cells, cells containing the ellipsis placeholder, and the dash
placeholders; when it does return a day, the cell starts (after optional
whitespace) with a 1-2 digit integer whose value is the day, followed
(after optional whitespace) by a slash, with trailing annotation text
ignored. -/
theorem parse_day_placeholder_absent :
    parse_day "" = Option.none ∧
    (∀ s : String, hasEll s.data = true → parse_day s = Option.none) ∧
    parse_day "-" = Option.none ∧
    parse_day "—" = Option.none ∧
    parse_day "……" = Option.none ∧
    parse_day "5/一 注5" = some 5 ∧
    parse_day "19/一" = some 19 ∧
    (∀ (s : String) (n : Nat), parse_day s = some n →
      ∃ ds rest, s.data.dropWhile isPyWs = ds ++ rest ∧ ds ≠ [] ∧ ds.length ≤ 2 ∧
        ds.all Char.isDigit = true ∧ (rest.dropWhile isPyWs).head? = some '/' ∧
        n = digitsVal ds) := by
  refine ⟨rfl, ?_, rfl, rfl, rfl, rfl, rfl, ?_⟩
  · intro s h
    unfold parse_day
    split
    · rfl
    · rw [h]
      simp
  · intro s n h
    unfold parse_day at h
    split at h
    · exact absurd h (by simp)
    · split at h
      · exact absurd h (by simp)
      · unfold matchDay at h
        cases hd : s.data.dropWhile isPyWs with
        | nil => rw [hd] at h; exact absurd h (by simp)
        | cons c1 r1 =>
          rw [hd] at h
          dsimp only at h
          by_cases h1 : c1.isDigit
          · rw [if_pos h1] at h
            cases r1 with
            | nil => exact absurd h (by simp)
            | cons c2 r2 =>
              dsimp only at h
              by_cases h2 : c2.isDigit
              · rw [if_pos h2] at h
                by_cases h3 : ((r2.dropWhile isPyWs).head? == some '/') = true
                · rw [if_pos h3] at h
                  injection h with hn
                  refine ⟨[c1, c2], r2, rfl, by simp, by simp, by simp [h1, h2],
                    eq_of_beq h3, ?_⟩
                  simp only [digitsVal, List.foldl]
                  omega
                · rw [if_neg h3] at h
                  exact absurd h (by simp)
              · rw [if_neg h2] at h
                by_cases h3 : (((c2 :: r2).dropWhile isPyWs).head? == some '/') = true
                · rw [if_pos h3] at h
                  injection h with hn
                  refine ⟨[c1], c2 :: r2, rfl, by simp, by simp, by simp [h1],
                    eq_of_beq h3, ?_⟩
                  simp only [digitsVal, List.foldl]
                  omega
                · rw [if_neg h3] at h
                  exact absurd h (by simp)
          · rw [if_neg h1] at h
            exact absurd h (by simp)

/-- Witness for C7 at a concrete placeholder-bearing cell. -/
theorem parse_day_placeholder_absent_witness : parse_day "3/……" = Option.none :=
  parse_day_placeholder_absent.2.1 "3/……" (by decide)

/-! ### C8 -/

/-- C8 counterexample: the source's single pass gives the *first* column
that equals-or-contains the label; with header `["发布内容", "内容"]` it
returns column 0 (a mere substring match) although the exact match sits at
column 1, where the claimed exact-match precedence would return 1 (as the
spec-worded two-pass lookup does). -/
theorem content_col_first_substring_beats_exact :
    findContentCol ["发布内容", "内容"] = 0 ∧
    findContentColSpec ["发布内容", "内容"] = 1 := ⟨rfl, rfl⟩

/-- C8 as amended: the lookup is a single pass — the first header column
containing the label as a substring wins (an exact match adds nothing,
since equality implies containment), with default column index 1 when no
column contains the label. -/
theorem content_col_single_pass (header : List String) :
    findContentCol header =
      (header.findIdx? (fun v => strContains "内容" v)).getD 1 := by
  have hp : (fun v => ("内容" == v) || strContains "内容" v) =
      (fun v => strContains "内容" v) := by
    funext v
    cases hb : ("内容" == v) with
    | false => simp
    | true =>
      have hv : "内容" = v := eq_of_beq hb
      subst hv
      decide
  unfold findContentCol
  rw [hp]
  cases h : header.findIdx? (fun v => strContains "内容" v) with
  | none => rfl
  | some i => rfl

/-! ### C9 -/

/-- C9: a failure of the NBS (government statistics page) category is
isolated — with every other generator succeeding and
`gen_nbs_release_calendar` raising, the run still completes successfully,
writing every other category's file and the combined `00_all.ics`. -/
theorem nbs_failure_isolated (f1 f2 f3 f4 f5 f6 f7 f8 e : String) :
    runMain (.ok f1) (.ok f2) (.ok f3) (.ok f4) (.ok f5) (.ok f6) (.ok f7) (.ok f8)
        (.error e) =
      .ok [f1, f2, f3, f4, f5, f6, f7, f8, "00_all.ics"] := rfl

/-! ### C10 -/

/-- C10: an in-range unlock row whose market-value cell is empty, missing,
or unparseable (`mvYi` yields `None`) is still emitted as an event; the
threshold filter only ever drops rows whose market value parses. -/
theorem unlock_unparseable_mv_emitted (start last : SDate) (thr : ℚ)
    (dateCol codeCol nameCol amtCol mvCol : Option String)
    (r : List (String × PyVal)) (dt : DT) (dd : SDate)
    (hd : rowDate dateCol r = .ok (some dt))
    (hdd : DT.dateE dt = .ok dd)
    (hin : (sdleb start dd && sdleb dd last) = true)
    (hmv : mvYi (cellStr r mvCol) = Option.none) :
    processURow start last thr dateCol codeCol nameCol amtCol mvCol r =
      .ok (some
        { summary := "限售解禁｜" ++ unlockTitle (cellStr r nameCol) (cellStr r codeCol)
          day := dd
          description := unlockDesc (cellStr r amtCol) (cellStr r mvCol)
          uid := "unlock-" ++ cellStr r codeCol ++ "-" ++ isoDate dd }) := by
  simp [processURow, hd, hdd, hin, hmv]

set_option maxRecDepth 8192 in
/-- Witness for C10: the concrete in-range row with an empty market-value
cell is emitted. -/
theorem unlock_unparseable_mv_emitted_witness :
    processURow ⟨2026, 1, 1⟩ (addDays ⟨2026, 1, 1⟩ 90) 5 (some "解禁日期") (some "股票代码")
      (some "股票简称") (some "解禁数量") (some "解禁市值") c10row =
      .ok (some { summary := "限售解禁｜丙(600003)", day := ⟨2026, 2, 1⟩,
                  description := "解禁数量: 500",
                  uid := "unlock-600003-2026-02-01" }) :=
  unlock_unparseable_mv_emitted ⟨2026, 1, 1⟩ (addDays ⟨2026, 1, 1⟩ 90) 5 (some "解禁日期")
    (some "股票代码") (some "股票简称") (some "解禁数量") (some "解禁市值") c10row
    (.ymd 2026 2 1 0 0) ⟨2026, 2, 1⟩ rfl rfl (by decide) rfl
